import Mathlib

/-!
Verification development for the lyric-to-audio alignment engine of
`phase-3-performance` (`realign_lyrics.py`, `build_rap_db.py`).

Python strings are modelled as `List Char`, Python floats as `ℚ`
(exact rational arithmetic; the spec's properties are stated over real
numbers, and none of the claims depends on binary floating-point
rounding).  `numpy` slicing and `librosa` loading are modelled by lists
of samples; the external onset detector and the external transcription
capability are modelled by their outputs, which the corresponding
functions take as inputs.
-/

/-! ### Text normalization (`_clean` / `_words` of realign_lyrics.py,
`_clean_text` / `_words` of build_rap_db.py) -/

/-- Characters kept by the regex `[^a-z0-9\s']` substitution (applied after
lowercasing): lowercase letters, digits, whitespace and the apostrophe. -/
def keepChar (c : Char) : Bool :=
  c.isWhitespace || (decide ('a' ≤ c) && decide (c ≤ 'z')) ||
    (decide ('0' ≤ c) && decide (c ≤ '9')) || c == Char.ofNat 39

/-- Python `str.strip()`: drop leading and trailing whitespace. -/
def stripWs (l : List Char) : List Char :=
  ((l.dropWhile Char.isWhitespace).reverse.dropWhile Char.isWhitespace).reverse

/-- Models `_clean` (realign_lyrics.py) = `_clean_text` (build_rap_db.py):
`re.sub(r"[^a-z0-9\s']", "", s.lower()).strip()`. -/
def cleanText (s : List Char) : List Char :=
  stripWs ((s.map Char.toLower).filter keepChar)

/-- Python `str.split()` with no separator: split on whitespace runs,
dropping empty pieces.  The accumulator holds the current word reversed. -/
def splitWsAux : List Char → List Char → List (List Char)
  | [], acc => if acc.isEmpty then [] else [acc.reverse]
  | c :: cs, acc =>
      if c.isWhitespace then
        if acc.isEmpty then splitWsAux cs [] else acc.reverse :: splitWsAux cs []
      else splitWsAux cs (c :: acc)

/-- Python `str.split()` on a whitespace-normalized string. -/
def splitWs (l : List Char) : List (List Char) := splitWsAux l []

/-- Models `_words(s) = _clean(s).split()` (both pipelines). -/
def wordsOf (s : List Char) : List (List Char) := splitWs (cleanText s)

/-! ### `difflib.SequenceMatcher.ratio` (Python standard library)

The two pipelines score string similarity with
`SequenceMatcher(None, a, b).ratio()`.  `ratio` is `2*M/T` where `T`
is the total length of both sequences and `M` is the total size of the
matching blocks found by recursively taking the longest matching block
(ties resolved toward the earliest end position in `a`, then in `b`,
exactly as the `j2len` scan does).  No junk predicate is passed;
difflib's `autojunk` heuristic only activates when the second sequence
has at least 200 elements, which never happens for the word-level
comparisons and is not modelled for the window-level ones. -/

/-- Lookup in the `j2len` association list (Python dict), defaulting to 0. -/
def j2Get (m : List (ℕ × ℕ)) (j : ℕ) : ℕ :=
  match m.find? (fun p => p.1 == j) with
  | some p => p.2
  | none => 0

/-- One row of `find_longest_match`'s `j2len` dynamic program: process all
positions `j ∈ [blo, bhi)` with `b[j] = c` (ascending, as difflib's `b2j`
lists them), where `c = a[i]`.  Returns the updated best block
`(besti, bestj, bestsize)` and the new `j2len` row. -/
def flmRow (b : List Char) (c : Char) (blo bhi : ℕ) (j2len : List (ℕ × ℕ))
    (i : ℕ) (best : ℕ × ℕ × ℕ) : (ℕ × ℕ × ℕ) × List (ℕ × ℕ) :=
  let js := (List.range' blo (bhi - blo)).filter (fun j => b.getD j ' ' == c)
  js.foldl
    (fun acc j =>
      let k := (if j = 0 then 0 else j2Get j2len (j - 1)) + 1
      let best' := if acc.1.2.2 < k then (i + 1 - k, j + 1 - k, k) else acc.1
      (best', (j, k) :: acc.2))
    (best, [])

/-- `SequenceMatcher.find_longest_match(alo, ahi, blo, bhi)` with no junk:
the longest block `a[i:i+k] = b[j:j+k]` inside the given ranges, the first
one in `(i, j)` scan order among equals (difflib updates only on a strictly
larger size).  The junk-extension loops of difflib are no-ops when there is
no junk and are omitted. -/
def findLongestMatch (a b : List Char) (alo ahi blo bhi : ℕ) : ℕ × ℕ × ℕ :=
  ((List.range' alo (ahi - alo)).foldl
    (fun st i => flmRow b (a.getD i ' ') blo bhi st.2 i st.1)
    ((alo, blo, 0), [])).1

/-- Total size of all matching blocks (`get_matching_blocks` recursion):
take the longest match, recurse on both sides.  `fuel` bounds the recursion
depth; every call strictly shrinks the `a`-range, so `ahi - alo + 1` fuel
suffices. -/
def matchingSizeAux (a b : List Char) : ℕ → ℕ → ℕ → ℕ → ℕ → ℕ
  | 0, _, _, _, _ => 0
  | fuel + 1, alo, ahi, blo, bhi =>
      let t := findLongestMatch a b alo ahi blo bhi
      if t.2.2 = 0 then 0
      else
        matchingSizeAux a b fuel alo t.1 blo t.2.1 + t.2.2 +
          matchingSizeAux a b fuel (t.1 + t.2.2) ahi (t.2.1 + t.2.2) bhi

/-- Total matched size between two full sequences. -/
def matchingSize (a b : List Char) : ℕ :=
  matchingSizeAux a b (a.length + 1) 0 a.length 0 b.length

/-- `SequenceMatcher(None, a, b).ratio()`: `2*M/T`, and 1.0 for two empty
sequences (difflib's `_calculate_ratio`). -/
def smRatio (a b : List Char) : ℚ :=
  if a.length + b.length = 0 then 1
  else 2 * (matchingSize a b : ℚ) / ((a.length : ℚ) + (b.length : ℚ))

theorem smRatio_nonneg (a b : List Char) : 0 ≤ smRatio a b := by
  unfold smRatio
  split
  · norm_num
  · apply div_nonneg
    · positivity
    · positivity

/-! ### Configuration constants (realign_lyrics.py / build_rap_db.py) -/

/-- Minimum clip length in seconds (`MIN_PHRASE_DURATION = 0.6`). -/
def MIN_PHRASE_DURATION : ℚ := 0.6

/-- Maximum clip length in seconds (`MAX_PHRASE_DURATION = 4.0`). -/
def MAX_PHRASE_DURATION : ℚ := 4.0

/-- Per-song clip cap (`MAX_CLIPS_PER_SONG = 50`). -/
def MAX_CLIPS_PER_SONG : ℕ := 50

/-- Minimum fuzzy-match confidence to accept an alignment
(`MIN_CONFIDENCE = 0.30` in realign_lyrics.py; build_rap_db.py's caller
uses `0.25`). -/
def MIN_CONFIDENCE : ℚ := 0.30

/-- Audio sample rate (`SAMPLE_RATE = 44100`). -/
def SAMPLE_RATE : ℚ := 44100

/-! ### Data model -/

/-- A transcribed window `{"start": float, "end": float, "text": str}`.
The dict key `"end"` is modelled by the field `stop` (`end` is a Lean
keyword). -/
structure Seg where
  start : ℚ
  stop : ℚ
  text : List Char
deriving DecidableEq, Repr

/-- A phrase `{"lyric": str, "start": float, "end": float, ...}` as consumed
by the clip choppers (the `line_index` and `confidence` keys do not affect
chopping and are omitted). -/
structure Phrase where
  lyric : List Char
  start : ℚ
  stop : ℚ
deriving DecidableEq, Repr

/-! ### Python `round(x, 3)`: round half to even at the third decimal -/

/-- Round half to even to an integer (Python's `round` on the exact value;
Python rounds the binary double, which only differs on values whose decimal
scaling is not exactly representable — irrelevant to the claims, which are
stated over exact rationals). -/
def rhe (q : ℚ) : ℤ :=
  if Int.fract q < 1/2 then ⌊q⌋
  else if 1/2 < Int.fract q then ⌊q⌋ + 1
  else if 2 ∣ ⌊q⌋ then ⌊q⌋ else ⌊q⌋ + 1

/-- Python `round(q, 3)`. -/
def round3 (q : ℚ) : ℚ := (rhe (1000 * q) : ℚ) / 1000

/-! ### Fuzzy Line Matcher
(`match_lyric_to_segments`, realign_lyrics.py lines 308-362; the identical
scoring loop of `grok_align_line`, build_rap_db.py lines 397-436) -/

/-- The word-pair test of strategy 2 and of the refiner's position scan:
`a == b or SequenceMatcher(None, a, b).ratio() > t`. -/
def fuzzyWord (t : ℚ) (a b : List Char) : Prop := a = b ∨ t < smRatio a b

instance (t : ℚ) (a b : List Char) : Decidable (fuzzyWord t a b) := by
  unfold fuzzyWord; infer_instance

/-- `sum(1 for a, b in zip(lw, window) if a == b or ratio(a, b) > t)`. -/
def fuzzyMatches (t : ℚ) : List (List Char) → List (List Char) → ℕ
  | a :: as', b :: bs => (if fuzzyWord t a b then 1 else 0) + fuzzyMatches t as' bs
  | _, _ => 0

/-- Strategy 1, word-set overlap:
`len(lset & tset) / len(lset) if lset else 0`. -/
def wordSetOverlap (lw tw : List (List Char)) : ℚ :=
  if lw.dedup = [] then 0
  else ((lw.dedup.filter (fun w => decide (w ∈ tw))).length : ℚ) / (lw.dedup.length : ℚ)

/-- Strategy 2, consecutive-word sliding window with per-word tolerance
0.75; skipped (score 0.0) unless the lyric has at least 2 words. -/
def strategyConsec (lw tw : List (List Char)) : ℚ :=
  if 2 ≤ lw.length then
    (List.range (max 1 (tw.length - lw.length + 1))).foldl
      (fun consec i =>
        max consec ((fuzzyMatches 0.75 lw ((tw.drop i).take lw.length) : ℚ) / (lw.length : ℚ)))
      0
  else 0

/-- The per-window score
`max(overlap * 0.85, consec * 0.95, seq)` where `seq` is the
`SequenceMatcher` ratio of the cleaned full strings. -/
def windowScore (lyric text : List Char) : ℚ :=
  max (wordSetOverlap (wordsOf lyric) (wordsOf text) * 0.85)
    (max (strategyConsec (wordsOf lyric) (wordsOf text) * 0.95)
      (smRatio (cleanText lyric) (cleanText text)))

/-- Bool test for the instrumental sentinel:
`"[INSTRUMENTAL]" in text.upper()`. -/
def hasInstrumental (text : List Char) : Bool :=
  decide ("[INSTRUMENTAL]".toList <:+: text.map Char.toUpper)

/-- One iteration of the matcher's loop over `segments`: skip windows with
empty text, with the instrumental sentinel, or with no words; otherwise
keep the window iff its score strictly beats the best so far (ties keep the
earlier window). -/
def matchStep (lyric : List Char) (best : Option Seg × ℚ) (seg : Seg) :
    Option Seg × ℚ :=
  if seg.text = [] then best
  else if hasInstrumental seg.text then best
  else if wordsOf seg.text = [] then best
  else
    let score := windowScore lyric seg.text
    if best.2 < score then (some seg, score) else best

/-- `match_lyric_to_segments(lyric, segments)` (realign_lyrics.py):
returns `(best_segment, confidence)`; `(None, 0.0)` immediately when the
lyric has no words. -/
def match_lyric_to_segments (lyric : List Char) (segments : List Seg) :
    Option Seg × ℚ :=
  if wordsOf lyric = [] then (none, 0)
  else segments.foldl (matchStep lyric) (none, 0)

/-! ### Timestamp Refiner
(`refine_timestamp`, realign_lyrics.py lines 365-408; the identical inline
refinement of `grok_align_line`, build_rap_db.py lines 441-466) -/

/-- The refiner's position scan: the offset of the best fuzzy-matching
slice of the transcript (per-word tolerance 0.7), updating only on a
strictly better fraction, starting at `best_pos = 0, best_r = 0.0`. -/
def bestMatchPos (lw tw : List (List Char)) : ℕ :=
  ((List.range (max 1 (tw.length - lw.length + 1))).foldl
    (fun acc i =>
      let r := (fuzzyMatches 0.7 lw ((tw.drop i).take lw.length) : ℚ) / (lw.length : ℚ)
      if acc.2 < r then (i, r) else acc)
    (0, 0)).1

/-- The shared refinement formulas (`refine_timestamp` after its guard and
`grok_align_line` lines 441-464): words-per-second model, duration clamp to
`[MIN_PHRASE_DURATION, MAX_PHRASE_DURATION]`, clamps to the song bounds,
then `round(_, 3)` on both endpoints. -/
def refineCore (lyric : List Char) (seg : Seg) (song_duration : ℚ) : ℚ × ℚ :=
  let lw := wordsOf lyric
  let tw := wordsOf seg.text
  let seg_dur := seg.stop - seg.start
  let best_pos := bestMatchPos lw tw
  let wps := if 0 < seg_dur then (tw.length : ℚ) / seg_dur else 5
  let est_start := seg.start + (best_pos : ℚ) / wps
  let est_dur := max MIN_PHRASE_DURATION
    (min ((lw.length : ℚ) / wps) MAX_PHRASE_DURATION)
  let est_end := est_start + est_dur
  let s2 := max 0 (min est_start (song_duration - MIN_PHRASE_DURATION))
  let e2 := min song_duration (max est_end (s2 + MIN_PHRASE_DURATION))
  (round3 s2, round3 e2)

/-- `refine_timestamp(lyric, seg, song_duration)` (realign_lyrics.py):
early fallback when the transcript or the lyric has no words, otherwise the
shared refinement. -/
def refine_timestamp (lyric : List Char) (seg : Seg) (song_duration : ℚ) :
    ℚ × ℚ :=
  if wordsOf seg.text = [] ∨ wordsOf lyric = [] then
    (seg.start, min seg.stop (seg.start + MAX_PHRASE_DURATION))
  else refineCore lyric seg song_duration

/-- `grok_align_line(lyric, segments, duration)` (build_rap_db.py):
`(0.0, MIN_PHRASE_DURATION, 0.0)` for a wordless lyric or when the best
score is missing or below 0.15; otherwise the refined timestamps plus the
rounded score. -/
def grok_align_line (lyric : List Char) (segments : List Seg)
    (duration : ℚ) : ℚ × ℚ × ℚ :=
  if wordsOf lyric = [] then (0, MIN_PHRASE_DURATION, 0)
  else
    let best := segments.foldl (matchStep lyric) (none, 0)
    match best.1 with
    | none => (0, MIN_PHRASE_DURATION, 0)
    | some seg =>
        if best.2 < 0.15 then (0, MIN_PHRASE_DURATION, 0)
        else
          let p := refineCore lyric seg duration
          (p.1, p.2, round3 best.2)

/-! ### Clip Chopper
(`chop_song_by_phrases`, build_rap_db.py lines 693-754; `rechop_song`,
realign_lyrics.py lines 415-464, differs only in the duration tolerance
`+1.0` instead of `+0.5`) -/

/-- Python `int()` on the nonnegative values it receives here (truncation
toward zero = floor for nonnegative arguments), clamped into `ℕ`. -/
def pyInt (q : ℚ) : ℕ := (⌊q⌋).toNat

/-- `y[int(s*sr) : int(e*sr)]` on the sample list. -/
def clipSlice (y : List ℚ) (s e : ℚ) : List ℚ :=
  (y.drop (pyInt (s * SAMPLE_RATE))).take
    (pyInt (e * SAMPLE_RATE) - pyInt (s * SAMPLE_RATE))

/-- `np.mean(clip**2)`, the square of the measured RMS
`np.sqrt(np.mean(clip**2))`.  Since both the RMS and the silence threshold
are nonnegative, `rms < 0.005` is equivalent to `rmsSq < 0.005**2`, which
keeps the model inside `ℚ`.  (`np.mean` of an empty slice is NaN in numpy;
an empty slice is unreachable behind the duration guard, because a padded
duration of at least `MIN_PHRASE_DURATION` spans at least 26459 samples.) -/
def rmsSq (l : List ℚ) : ℚ := (l.map (fun x => x ^ 2)).sum / (l.length : ℚ)

/-- The two rejection guards of the chopper loop, in source order: pad by
0.05 s, clamp to `[0, duration]`, reject a padded duration outside
`[MIN_PHRASE_DURATION, MAX_PHRASE_DURATION + 0.5]`, then reject RMS below
the 0.005 silence threshold. -/
def acceptPhrase (y : List ℚ) (ph : Phrase) : Bool :=
  let duration := (y.length : ℚ) / SAMPLE_RATE
  let start_padded := max 0 (ph.start - 0.05)
  let end_padded := min duration (ph.stop + 0.05)
  let phrase_dur := end_padded - start_padded
  if phrase_dur < MIN_PHRASE_DURATION ∨ MAX_PHRASE_DURATION + 0.5 < phrase_dur
    then false
  else decide (¬ rmsSq (clipSlice y start_padded end_padded) < 0.005 ^ 2)

/-- The metadata record appended for an accepted phrase.  The artist/title
identity fields and the derived `clip_file` name are constant bookkeeping
and not modelled; `rms_sq` holds the square of the measured RMS (see
`rmsSq`), unrounded. -/
structure ClipMeta where
  lyric : List Char
  start_time : ℚ
  end_time : ℚ
  duration : ℚ
  rms_sq : ℚ
  clip_index : ℕ
deriving DecidableEq, Repr

/-- The record built for phrase number `ci` of the song. -/
def mkClip (y : List ℚ) (ci : ℕ) (ph : Phrase) : ClipMeta :=
  let duration := (y.length : ℚ) / SAMPLE_RATE
  let start_padded := max 0 (ph.start - 0.05)
  let end_padded := min duration (ph.stop + 0.05)
  let phrase_dur := end_padded - start_padded
  { lyric := ph.lyric
    start_time := round3 ph.start
    end_time := round3 ph.stop
    duration := round3 phrase_dur
    rms_sq := rmsSq (clipSlice y start_padded end_padded)
    clip_index := ci }

/-- The chopper loop `for ci, phrase in enumerate(phrases[:50])`:
a rejected phrase is skipped (`continue`), the rest of the list is still
processed. -/
def chopAux (y : List ℚ) : ℕ → List Phrase → List ClipMeta
  | _, [] => []
  | ci, ph :: rest =>
      if acceptPhrase y ph then mkClip y ci ph :: chopAux y (ci + 1) rest
      else chopAux y (ci + 1) rest

/-- `chop_song_by_phrases(wav_path, phrases, ...)` (build_rap_db.py). -/
def chop_song_by_phrases (y : List ℚ) (phrases : List Phrase) : List ClipMeta :=
  chopAux y 0 (phrases.take MAX_CLIPS_PER_SONG)

/-! ### Acoustic Fallback Segmenter
(`estimate_line_timestamps`, build_rap_db.py lines 469-525).  The librosa
onset detector is the external acoustic capability; the function is
modelled as taking its output `onset_times` and the song `duration` as
inputs. -/

/-- The onset-merge loop: onsets closer than 0.3 s extend the current raw
segment, otherwise the segment is flushed and a new one starts. -/
def buildRawSegs (s e : ℚ) : List ℚ → List (ℚ × ℚ)
  | [] => [(s, e)]
  | t :: ts => if t - e < 0.3 then buildRawSegs s t ts else (s, e) :: buildRawSegs t t ts

/-- First index of the extremal value of `vals` starting from a candidate
`best` (at index `< i`) with value `bv`; `upd v bv` decides whether `v`
strictly beats `bv`.  Python's `max(range(n), key=f)` / `min(...)` return
the first extremal index, which is what updating only on a strict
improvement yields. -/
def argBestAux (upd : ℚ → ℚ → Bool) : List ℚ → ℕ → ℕ → ℚ → ℕ
  | [], _, best, _ => best
  | v :: vs, i, best, bv =>
      if upd v bv then argBestAux upd vs (i + 1) i v
      else argBestAux upd vs (i + 1) best bv

/-- `max(range(len(vals)), key=...)`: first index of the maximum. -/
def argmaxList (vals : List ℚ) : ℕ :=
  match vals with
  | [] => 0
  | v :: vs => argBestAux (fun w bv => decide (bv < w)) vs 1 0 v

/-- `min(range(len(vals)), key=...)`: first index of the minimum. -/
def argminList (vals : List ℚ) : ℕ :=
  match vals with
  | [] => 0
  | v :: vs => argBestAux (fun w bv => decide (w < bv)) vs 1 0 v

/-- `segments[longest_idx:longest_idx+1] = [(s, mid), (mid, e)]` at the
first longest segment. -/
def splitStep (segs : List (ℚ × ℚ)) : List (ℚ × ℚ) :=
  let idx := argmaxList (segs.map (fun p => p.2 - p.1))
  let p := segs.getD idx (0, 0)
  let mid := (p.1 + p.2) / 2
  segs.take idx ++ [(p.1, mid), (mid, p.2)] ++ segs.drop (idx + 1)

/-- `segments[min_gap_idx:min_gap_idx+2] = [merged]` at the smallest gap
between consecutive segments. -/
def mergeStep (segs : List (ℚ × ℚ)) : List (ℚ × ℚ) :=
  let gaps := (segs.zip segs.tail).map (fun p => p.2.1 - p.1.2)
  let i := argminList gaps
  let a := segs.getD i (0, 0)
  let b := segs.getD (i + 1) (0, 0)
  segs.take i ++ [(a.1, b.2)] ++ segs.drop (i + 2)

/-- `while len(segments) < num_lines:` split the longest segment at its
midpoint.  Each iteration grows the list by one, so `num_lines` fuel
suffices for a nonempty list. -/
def splitLoop (n : ℕ) : ℕ → List (ℚ × ℚ) → List (ℚ × ℚ)
  | 0, segs => segs
  | fuel + 1, segs =>
      if segs.length < n then splitLoop n fuel (splitStep segs) else segs

/-- `while len(segments) > num_lines and len(segments) > 1:` merge the two
segments with the smallest gap. -/
def mergeLoop (n : ℕ) : ℕ → List (ℚ × ℚ) → List (ℚ × ℚ)
  | 0, segs => segs
  | fuel + 1, segs =>
      if n < segs.length ∧ 1 < segs.length then mergeLoop n fuel (mergeStep segs)
      else segs

/-- The final loop over `enumerate(segments[:num_lines])`: extend each end
toward the next segment's start (or the song end), cap at
`s + MAX_PHRASE_DURATION + 1.0`, floor at `s + MIN_PHRASE_DURATION`
(after the cap), and round both endpoints. -/
def finalizeSegs (segs : List (ℚ × ℚ)) (n : ℕ) (duration : ℚ) :
    List (ℚ × ℚ) :=
  ((segs.take n).enum).map (fun p =>
    let s := p.2.1
    let e0 :=
      if p.1 + 1 < segs.length then
        min (segs.getD (p.1 + 1) (0, 0)).1 (s + MAX_PHRASE_DURATION + 1)
      else min duration (s + MAX_PHRASE_DURATION + 1)
    (round3 s, round3 (max e0 (s + MIN_PHRASE_DURATION))))

/-- `estimate_line_timestamps(wav_path, num_lines)` (build_rap_db.py):
with fewer than 2 onsets, a uniform division of the duration into
`num_lines` equal slices; otherwise merge onsets into raw segments, split
or merge to exactly `num_lines`, and finalize the ends. -/
def estimate_line_timestamps (onset_times : List ℚ) (duration : ℚ)
    (num_lines : ℕ) : List (ℚ × ℚ) :=
  if onset_times.length < 2 then
    let line_dur := duration / (num_lines : ℚ)
    (List.range num_lines).map
      (fun i : ℕ => ((i : ℚ) * line_dur, ((i : ℚ) + 1) * line_dur))
  else
    let raw := buildRawSegs (onset_times.headD 0) (onset_times.headD 0)
      onset_times.tail
    let segs1 := splitLoop num_lines num_lines raw
    let segs := mergeLoop num_lines segs1.length segs1
    finalizeSegs segs num_lines duration

/-! ### Properties of round-half-even -/

theorem rhe_mono {a b : ℚ} (h : a ≤ b) : rhe a ≤ rhe b := by
  have hf : ⌊a⌋ ≤ ⌊b⌋ := Int.floor_le_floor h
  rcases lt_or_eq_of_le hf with hlt | heq
  · have ha : rhe a ≤ ⌊a⌋ + 1 := by
      unfold rhe; split_ifs <;> omega
    have hb : ⌊b⌋ ≤ rhe b := by
      unfold rhe; split_ifs <;> omega
    omega
  · have hfa : Int.fract a = a - ⌊a⌋ := rfl
    have hfb : Int.fract b = b - ⌊b⌋ := rfl
    have hfr : Int.fract a ≤ Int.fract b := by
      rw [hfa, hfb, heq]; linarith
    unfold rhe
    rw [heq]
    split_ifs <;> first | omega | linarith

theorem rhe_add_even (q : ℚ) (n : ℤ) (h : 2 ∣ n) :
    rhe (q + (n : ℚ)) = rhe q + n := by
  have hf : ⌊q + (n : ℚ)⌋ = ⌊q⌋ + n := Int.floor_add_int q n
  have hfr : Int.fract (q + (n : ℚ)) = Int.fract q := Int.fract_add_int q n
  unfold rhe
  rw [hf, hfr]
  split_ifs <;> omega

theorem rhe_cast_le (q : ℚ) : (rhe q : ℚ) ≤ q + 1/2 := by
  have hfl : (⌊q⌋ : ℚ) ≤ q := Int.floor_le q
  have hfr : Int.fract q = q - ⌊q⌋ := rfl
  unfold rhe
  split_ifs with h1 h2 h3 <;> push_cast <;> rw [hfr] at * <;> linarith

theorem rhe_zero : rhe 0 = 0 := by norm_num [rhe, Int.fract]

theorem round3_mono {a b : ℚ} (h : a ≤ b) : round3 a ≤ round3 b := by
  unfold round3
  have : rhe (1000 * a) ≤ rhe (1000 * b) := rhe_mono (by linarith)
  have : ((rhe (1000 * a) : ℚ)) ≤ (rhe (1000 * b) : ℚ) := by exact_mod_cast this
  linarith

/-- Rounding both endpoints preserves a separation that is an even number
of thousandths: `b - a ≥ n/1000` implies
`round3 b - round3 a ≥ n/1000`. -/
theorem round3_sep (a b : ℚ) (n : ℤ) (hn : 2 ∣ n)
    (h : a + (n : ℚ) / 1000 ≤ b) : round3 a + (n : ℚ) / 1000 ≤ round3 b := by
  unfold round3
  have h1 : rhe (1000 * a + (n : ℚ)) ≤ rhe (1000 * b) := rhe_mono (by linarith)
  rw [rhe_add_even _ _ hn] at h1
  have h2 : ((rhe (1000 * a) + n : ℤ) : ℚ) ≤ (rhe (1000 * b) : ℚ) := by
    exact_mod_cast h1
  push_cast at h2
  linarith

/-- The mirrored bound: `b - a ≤ n/1000` implies
`round3 b - round3 a ≤ n/1000`. -/
theorem round3_sep_le (a b : ℚ) (n : ℤ) (hn : 2 ∣ n)
    (h : b ≤ a + (n : ℚ) / 1000) : round3 b ≤ round3 a + (n : ℚ) / 1000 := by
  unfold round3
  have h1 : rhe (1000 * b) ≤ rhe (1000 * a + (n : ℚ)) := rhe_mono (by linarith)
  rw [rhe_add_even _ _ hn] at h1
  have h2 : ((rhe (1000 * b) : ℤ) : ℚ) ≤ ((rhe (1000 * a) + n : ℤ) : ℚ) := by
    exact_mod_cast h1
  push_cast at h2
  linarith

theorem round3_nonneg {a : ℚ} (h : 0 ≤ a) : 0 ≤ round3 a := by
  have h1 : rhe 0 ≤ rhe (1000 * a) := rhe_mono (by linarith)
  rw [rhe_zero] at h1
  unfold round3
  have h2 : (0 : ℚ) ≤ (rhe (1000 * a) : ℚ) := by exact_mod_cast h1
  linarith

theorem round3_le_half_step (a c : ℚ) (h : a ≤ c) :
    round3 a ≤ c + 1/2000 := by
  unfold round3
  have h1 : (rhe (1000 * a) : ℚ) ≤ 1000 * a + 1/2 := rhe_cast_le _
  have h2 : (rhe (1000 * a) : ℚ) / 1000 ≤ (1000 * a + 1/2) / 1000 := by
    apply div_le_div_of_nonneg_right h1 (by norm_num)
  calc (rhe (1000 * a) : ℚ) / 1000 ≤ (1000 * a + 1/2) / 1000 := h2
    _ = a + 1/2000 := by ring
    _ ≤ c + 1/2000 := by linarith

/-! ### Structure of the matcher's fold -/

/-- Each loop iteration either keeps the best-so-far unchanged, or selects
the current window together with its score; selection only happens for a
window that passed all three skip guards and strictly beat the previous
best. -/
theorem matchStep_cases (lyric : List Char) (best : Option Seg × ℚ) (seg : Seg) :
    matchStep lyric best seg = best ∨
      (matchStep lyric best seg = (some seg, windowScore lyric seg.text) ∧
        best.2 < windowScore lyric seg.text ∧
        seg.text ≠ [] ∧ hasInstrumental seg.text = false ∧
        wordsOf seg.text ≠ []) := by
  simp only [matchStep]
  split_ifs with h1 h2 h3 h4
  · exact Or.inl rfl
  · exact Or.inl rfl
  · exact Or.inl rfl
  · exact Or.inr ⟨rfl, h4, h1, by simpa using h2, h3⟩
  · exact Or.inl rfl

/-- If the fold over the windows ends on `some s`, then either the initial
accumulator already held `s`, or `s` is one of the scanned windows and it
passed the skip guards (nonempty text, no instrumental sentinel, at least
one word). -/
theorem matchFold_some (lyric : List Char) :
    ∀ (segs : List Seg) (init : Option Seg × ℚ) (s : Seg),
      (segs.foldl (matchStep lyric) init).1 = some s →
      init.1 = some s ∨
        (s ∈ segs ∧ s.text ≠ [] ∧ hasInstrumental s.text = false ∧
          wordsOf s.text ≠ []) := by
  intro segs
  induction segs with
  | nil => intro init s h; exact Or.inl h
  | cons a l ih =>
      intro init s h
      rw [List.foldl_cons] at h
      rcases ih (matchStep lyric init a) s h with h1 | h1
      · rcases matchStep_cases lyric init a with hc | hc
        · rw [hc] at h1; exact Or.inl h1
        · rw [hc.1] at h1
          simp only [Option.some.injEq] at h1
          subst h1
          exact Or.inr ⟨List.mem_cons_self a l, hc.2.2.1, hc.2.2.2.1, hc.2.2.2.2⟩
      · exact Or.inr ⟨List.mem_cons_of_mem a h1.1, h1.2.1, h1.2.2.1, h1.2.2.2⟩

/-- The fold either returns its initial accumulator unchanged, or returns a
selected window together with a score strictly above the initial one. -/
theorem matchFold_pos (lyric : List Char) :
    ∀ (segs : List Seg) (init : Option Seg × ℚ),
      segs.foldl (matchStep lyric) init = init ∨
        ((segs.foldl (matchStep lyric) init).1 ≠ none ∧
          init.2 < (segs.foldl (matchStep lyric) init).2) := by
  intro segs
  induction segs with
  | nil => intro init; exact Or.inl rfl
  | cons a l ih =>
      intro init
      rw [List.foldl_cons]
      rcases matchStep_cases lyric init a with hc | hc
      · rw [hc]; exact ih init
      · rw [hc.1]
        rcases ih (some a, windowScore lyric a.text) with h1 | h1
        · rw [h1]
          exact Or.inr ⟨by simp, hc.2.1⟩
        · exact Or.inr ⟨h1.1, lt_trans hc.2.1 h1.2⟩

/-! ### Claim theorems for the Fuzzy Line Matcher -/

/-- Claim C5: a window whose text contains the `[INSTRUMENTAL]` sentinel is never
selected as the best match, whatever its score. -/
theorem claim_C5 (lyric : List Char) (segs : List Seg) (seg : Seg)
    (h : (match_lyric_to_segments lyric segs).1 = some seg) :
    hasInstrumental seg.text = false := by
  unfold match_lyric_to_segments at h
  by_cases h0 : wordsOf lyric = []
  · rw [if_pos h0] at h
    exact absurd h (by simp)
  · rw [if_neg h0] at h
    rcases matchFold_some lyric segs (none, 0) seg h with h1 | h1
    · exact absurd h1 (by simp)
    · exact h1.2.2.1

/-- Claim C8: the matcher and the aligner are pure functions of their inputs —
two runs on the same lyric and window set return the same best window and
confidence. -/
theorem claim_C8 (lyric : List Char) (segs : List Seg) (duration : ℚ) :
    match_lyric_to_segments lyric segs = match_lyric_to_segments lyric segs ∧
      grok_align_line lyric segs duration = grok_align_line lyric segs duration :=
  ⟨rfl, rfl⟩

/-- Claim C9: for a single-word lyric, the consecutive sliding-window strategy is
skipped (it contributes 0), and the per-window score collapses to
`max(overlap * 0.85, whole-string similarity)`. -/
theorem claim_C9 (lyric text : List Char)
    (h : (wordsOf lyric).length = 1) :
    strategyConsec (wordsOf lyric) (wordsOf text) = 0 ∧
      windowScore lyric text =
        max (wordSetOverlap (wordsOf lyric) (wordsOf text) * 0.85)
          (smRatio (cleanText lyric) (cleanText text)) := by
  have hc : strategyConsec (wordsOf lyric) (wordsOf text) = 0 := by
    unfold strategyConsec
    rw [if_neg (by omega)]
  refine ⟨hc, ?_⟩
  unfold windowScore
  rw [hc]
  rw [zero_mul]
  rw [max_eq_right (smRatio_nonneg _ _)]

/-- Claim C7, amended: a lyric with at least one extractable word whose words
are all contained in the transcript's words scores word-set overlap 1.0. -/
theorem claim_C7 (lyric transcript : List Char)
    (h1 : wordsOf lyric ≠ [])
    (h2 : ∀ w ∈ wordsOf lyric, w ∈ wordsOf transcript) :
    wordSetOverlap (wordsOf lyric) (wordsOf transcript) = 1 := by
  unfold wordSetOverlap
  have hd : (wordsOf lyric).dedup ≠ [] := by
    simpa [List.dedup_eq_nil] using h1
  rw [if_neg hd]
  have hf : (wordsOf lyric).dedup.filter
      (fun w => decide (w ∈ wordsOf transcript)) = (wordsOf lyric).dedup := by
    apply List.filter_eq_self.mpr
    intro a ha
    exact decide_eq_true (h2 a (List.mem_dedup.mp ha))
  rw [hf]
  have hpos : 0 < (wordsOf lyric).dedup.length := List.length_pos.mpr hd
  have hlen : ((wordsOf lyric).dedup.length : ℚ) ≠ 0 := by
    exact_mod_cast Nat.pos_iff_ne_zero.mp hpos
  field_simp

/-- Claim C2, amended: a lyric with zero extractable words yields
`(None, 0.0)` immediately, for every window list; and the matcher returns a
null window exactly when it returns confidence 0.0.  (Scores below the
acceptance threshold are returned unchanged; the threshold comparison and
the fallback live in the caller.) -/
theorem claim_C2 (lyric : List Char) (segs : List Seg) :
    (wordsOf lyric = [] → match_lyric_to_segments lyric segs = (none, 0)) ∧
      ((match_lyric_to_segments lyric segs).1 = none ↔
        (match_lyric_to_segments lyric segs).2 = 0) := by
  constructor
  · intro h
    unfold match_lyric_to_segments
    rw [if_pos h]
  · unfold match_lyric_to_segments
    split_ifs with h0
    · simp
    · rcases matchFold_pos lyric segs (none, 0) with h1 | h1
      · rw [h1]; simp
      · constructor
        · intro hn; exact absurd hn h1.1
        · intro hz; rw [hz] at h1; exact absurd h1.2 (lt_irrefl 0)

/-! ### Claim C1: bounds of the Timestamp Refiner -/

/-- The clamping-and-rounding tail of the refinement: for any estimated
start `A` and any estimated duration `D ∈ [MIN, MAX]`, the clamped pair
satisfies the duration bounds exactly, and the song-end bound up to the
half-millimeter of the final rounding. -/
theorem clamp_bounds (A D dur : ℚ)
    (h1 : MIN_PHRASE_DURATION ≤ D) (h2 : D ≤ MAX_PHRASE_DURATION)
    (hd : MIN_PHRASE_DURATION ≤ dur) :
    MIN_PHRASE_DURATION ≤
        round3 (min dur (max (A + D)
          (max 0 (min A (dur - MIN_PHRASE_DURATION)) + MIN_PHRASE_DURATION))) -
        round3 (max 0 (min A (dur - MIN_PHRASE_DURATION))) ∧
      round3 (min dur (max (A + D)
          (max 0 (min A (dur - MIN_PHRASE_DURATION)) + MIN_PHRASE_DURATION))) -
        round3 (max 0 (min A (dur - MIN_PHRASE_DURATION))) ≤ MAX_PHRASE_DURATION ∧
      0 ≤ round3 (max 0 (min A (dur - MIN_PHRASE_DURATION))) ∧
      round3 (max 0 (min A (dur - MIN_PHRASE_DURATION))) <
        round3 (min dur (max (A + D)
          (max 0 (min A (dur - MIN_PHRASE_DURATION)) + MIN_PHRASE_DURATION))) ∧
      round3 (min dur (max (A + D)
          (max 0 (min A (dur - MIN_PHRASE_DURATION)) + MIN_PHRASE_DURATION))) ≤
        dur + 1/2000 := by
  have hMM : MIN_PHRASE_DURATION ≤ MAX_PHRASE_DURATION := by
    norm_num [MIN_PHRASE_DURATION, MAX_PHRASE_DURATION]
  set s2 := max 0 (min A (dur - MIN_PHRASE_DURATION)) with hs2def
  set e2 := min dur (max (A + D) (s2 + MIN_PHRASE_DURATION)) with he2def
  have hs0 : 0 ≤ s2 := le_max_left _ _
  have hs1 : s2 ≤ dur - MIN_PHRASE_DURATION := by
    apply max_le
    · linarith
    · exact min_le_right _ _
  have hlow : s2 + MIN_PHRASE_DURATION ≤ e2 := by
    apply le_min
    · linarith
    · exact le_max_right _ _
  have hde : e2 ≤ dur := min_le_left _ _
  have hup : e2 ≤ s2 + MAX_PHRASE_DURATION := by
    rcases le_total A (dur - MIN_PHRASE_DURATION) with hc | hc
    · rcases le_total 0 A with hc2 | hc2
      · have hs2v : s2 = A := by rw [hs2def, min_eq_left hc, max_eq_right hc2]
        refine le_trans (min_le_right _ _) ?_
        rw [hs2v]
        apply max_le <;> linarith
      · have hs2v : s2 = 0 := by
          rw [hs2def, min_eq_left hc]
          exact max_eq_left (by linarith)
        refine le_trans (min_le_right _ _) ?_
        rw [hs2v]
        apply max_le <;> linarith
    · have hs2v : s2 = dur - MIN_PHRASE_DURATION := by
        rw [hs2def, min_eq_right hc]
        exact max_eq_right (by linarith)
      refine le_trans (min_le_left _ _) ?_
      rw [hs2v]
      linarith
  have hMINq : MIN_PHRASE_DURATION = ((600 : ℤ) : ℚ) / 1000 := by
    norm_num [MIN_PHRASE_DURATION]
  have hMAXq : MAX_PHRASE_DURATION = ((4000 : ℤ) : ℚ) / 1000 := by
    norm_num [MAX_PHRASE_DURATION]
  have hsep : round3 s2 + ((600 : ℤ) : ℚ) / 1000 ≤ round3 e2 := by
    apply round3_sep _ _ _ (by norm_num)
    rw [← hMINq]
    exact hlow
  have hsep2 : round3 e2 ≤ round3 s2 + ((4000 : ℤ) : ℚ) / 1000 := by
    apply round3_sep_le _ _ _ (by norm_num)
    rw [← hMAXq]
    exact hup
  refine ⟨?_, ?_, round3_nonneg hs0, ?_, round3_le_half_step _ _ hde⟩
  · rw [hMINq]; linarith
  · rw [hMAXq]; linarith
  · have : (0 : ℚ) < ((600 : ℤ) : ℚ) / 1000 := by norm_num
    linarith

/-- The bounds hold for the shared refinement core whenever the song lasts
at least `MIN_PHRASE_DURATION`. -/
theorem refineCore_bounds (lyric : List Char) (seg : Seg) (dur : ℚ)
    (hd : MIN_PHRASE_DURATION ≤ dur) :
    MIN_PHRASE_DURATION ≤
        (refineCore lyric seg dur).2 - (refineCore lyric seg dur).1 ∧
      (refineCore lyric seg dur).2 - (refineCore lyric seg dur).1 ≤
        MAX_PHRASE_DURATION ∧
      0 ≤ (refineCore lyric seg dur).1 ∧
      (refineCore lyric seg dur).1 < (refineCore lyric seg dur).2 ∧
      (refineCore lyric seg dur).2 ≤ dur + 1/2000 := by
  have h1 : MIN_PHRASE_DURATION ≤
      max MIN_PHRASE_DURATION
        (min (((wordsOf lyric).length : ℚ) /
            (if 0 < seg.stop - seg.start then
              ((wordsOf seg.text).length : ℚ) / (seg.stop - seg.start) else 5))
          MAX_PHRASE_DURATION) := le_max_left _ _
  have h2 : max MIN_PHRASE_DURATION
      (min (((wordsOf lyric).length : ℚ) /
          (if 0 < seg.stop - seg.start then
            ((wordsOf seg.text).length : ℚ) / (seg.stop - seg.start) else 5))
        MAX_PHRASE_DURATION) ≤ MAX_PHRASE_DURATION := by
    apply max_le
    · norm_num [MIN_PHRASE_DURATION, MAX_PHRASE_DURATION]
    · exact min_le_right _ _
  simpa only [refineCore] using
    clamp_bounds
      (seg.start + ((bestMatchPos (wordsOf lyric) (wordsOf seg.text) : ℚ) /
        (if 0 < seg.stop - seg.start then
          ((wordsOf seg.text).length : ℚ) / (seg.stop - seg.start) else 5)))
      (max MIN_PHRASE_DURATION
        (min (((wordsOf lyric).length : ℚ) /
            (if 0 < seg.stop - seg.start then
              ((wordsOf seg.text).length : ℚ) / (seg.stop - seg.start) else 5))
          MAX_PHRASE_DURATION))
      dur h1 h2 hd

/-- Claim C1, amended: a phrase refined from an accepted match of the Fuzzy Line
Matcher, with a song of duration at least `MIN_PHRASE_DURATION`, satisfies
`MIN_PHRASE_DURATION ≤ end - start ≤ MAX_PHRASE_DURATION` and
`0 ≤ start < end ≤ song_duration + 0.0005`; the final rounding of both
endpoints to the millisecond grid can push `end` up to half a millisecond
past `song_duration`, and all other bounds are exact. -/
theorem claim_C1 (lyric : List Char) (segs : List Seg) (seg : Seg)
    (song_duration : ℚ)
    (hacc : (match_lyric_to_segments lyric segs).1 = some seg)
    (hd : MIN_PHRASE_DURATION ≤ song_duration) :
    MIN_PHRASE_DURATION ≤
        (refine_timestamp lyric seg song_duration).2 -
          (refine_timestamp lyric seg song_duration).1 ∧
      (refine_timestamp lyric seg song_duration).2 -
          (refine_timestamp lyric seg song_duration).1 ≤ MAX_PHRASE_DURATION ∧
      0 ≤ (refine_timestamp lyric seg song_duration).1 ∧
      (refine_timestamp lyric seg song_duration).1 <
        (refine_timestamp lyric seg song_duration).2 ∧
      (refine_timestamp lyric seg song_duration).2 ≤ song_duration + 1/2000 := by
  have hlyr : wordsOf lyric ≠ [] := by
    intro h0
    unfold match_lyric_to_segments at hacc
    rw [if_pos h0] at hacc
    exact absurd hacc (by simp)
  have htxt : wordsOf seg.text ≠ [] := by
    unfold match_lyric_to_segments at hacc
    rw [if_neg hlyr] at hacc
    rcases matchFold_some lyric segs (none, 0) seg hacc with h1 | h1
    · exact absurd h1 (by simp)
    · exact h1.2.2.2
  have hrw : refine_timestamp lyric seg song_duration =
      refineCore lyric seg song_duration := by
    unfold refine_timestamp
    rw [if_neg]
    push_neg
    exact ⟨htxt, hlyr⟩
  rw [hrw]
  exact refineCore_bounds lyric seg song_duration hd


/-! ### Concrete instances and their evaluations

The following definitions set up the concrete inputs used by the
end-to-end scenario (claim C6), the counterexamples and the witnesses,
and evaluate the pipeline on them step by step. -/


theorem fuzzyWord_eval_false (t : ℚ) (a b : List Char) (m la lb : ℕ)
    (hne : ¬ a = b) (hm : matchingSize a b = m)
    (ha : a.length = la) (hb : b.length = lb)
    (h : 2 * (m : ℚ) / ((la : ℚ) + (lb : ℚ)) ≤ t) (hlen : ¬ la + lb = 0) :
    ¬ fuzzyWord t a b := by
  rintro (rfl | hlt)
  · exact hne rfl
  · rw [smRatio, ha, hb, hm, if_neg hlen] at hlt
    linarith

def lyricA : List Char := "a".toList

def segA : Seg := ⟨0, 10, "a".toList⟩

theorem eval_overlap_A : wordSetOverlap (wordsOf lyricA) (wordsOf segA.text) = 1 := by
  rw [wordSetOverlap, if_neg (by decide)]
  rw [show ((wordsOf lyricA).dedup.filter
      (fun w => decide (w ∈ wordsOf segA.text))).length = 1 from by decide]
  rw [show (wordsOf lyricA).dedup.length = 1 from by decide]
  norm_num

theorem eval_seq_A : smRatio (cleanText lyricA) (cleanText segA.text) = 1 := by
  rw [smRatio, if_neg (by decide)]
  rw [show matchingSize (cleanText lyricA) (cleanText segA.text) = 1 from by decide]
  rw [show (cleanText lyricA).length = 1 from by decide]
  rw [show (cleanText segA.text).length = 1 from by decide]
  norm_num

theorem eval_ws_A : windowScore lyricA segA.text = 1 := by
  rw [windowScore, eval_overlap_A, eval_seq_A]
  rw [strategyConsec, if_neg (by decide)]
  norm_num [max_def]

theorem eval_match_A : match_lyric_to_segments lyricA [segA] = (some segA, 1) := by
  rw [match_lyric_to_segments, if_neg (by decide)]
  rw [List.foldl_cons, List.foldl_nil]
  simp only [matchStep]
  rw [if_neg (by decide), if_neg (by decide), if_neg (by decide), eval_ws_A]
  norm_num

theorem eval_bmp_A : bestMatchPos (wordsOf lyricA) (wordsOf segA.text) = 0 := by
  rw [bestMatchPos]
  rw [show max 1 ((wordsOf segA.text).length - (wordsOf lyricA).length + 1) = 1 from
    by decide]
  rw [show List.range 1 = [0] from by decide]
  simp only [List.foldl_cons, List.foldl_nil]
  split
  · rfl
  · rfl

theorem eval_refine_A : refine_timestamp lyricA segA 0.6006 = (0, 0.601) := by
  rw [refine_timestamp, if_neg (by decide)]
  simp only [refineCore]
  rw [eval_bmp_A]
  rw [show (wordsOf lyricA).length = 1 from by decide]
  rw [show (wordsOf segA.text).length = 1 from by decide]
  norm_num [segA, round3, rhe, Int.fract, MIN_PHRASE_DURATION, MAX_PHRASE_DURATION]

theorem fuzzyWord_refl (t : ℚ) (a : List Char) : fuzzyWord t a a := Or.inl rfl

def lyricBH : List Char := "be humble".toList

def segBH : Seg := ⟨0, 10, "sit down be humble".toList⟩

theorem fw75_be_sit : ¬ fuzzyWord 0.75 "be".toList "sit".toList :=
  fuzzyWord_eval_false _ _ _ 0 2 3 (by decide) (by decide) (by decide) (by decide)
    (by norm_num) (by norm_num)

theorem fw75_humble_down : ¬ fuzzyWord 0.75 "humble".toList "down".toList :=
  fuzzyWord_eval_false _ _ _ 0 6 4 (by decide) (by decide) (by decide) (by decide)
    (by norm_num) (by norm_num)

theorem fw75_be_down : ¬ fuzzyWord 0.75 "be".toList "down".toList :=
  fuzzyWord_eval_false _ _ _ 0 2 4 (by decide) (by decide) (by decide) (by decide)
    (by norm_num) (by norm_num)

theorem fw75_humble_be : ¬ fuzzyWord 0.75 "humble".toList "be".toList :=
  fuzzyWord_eval_false _ _ _ 2 6 2 (by decide) (by decide) (by decide) (by decide)
    (by norm_num) (by norm_num)

theorem fw70_be_sit : ¬ fuzzyWord 0.7 "be".toList "sit".toList :=
  fuzzyWord_eval_false _ _ _ 0 2 3 (by decide) (by decide) (by decide) (by decide)
    (by norm_num) (by norm_num)

theorem fw70_humble_down : ¬ fuzzyWord 0.7 "humble".toList "down".toList :=
  fuzzyWord_eval_false _ _ _ 0 6 4 (by decide) (by decide) (by decide) (by decide)
    (by norm_num) (by norm_num)

theorem fw70_be_down : ¬ fuzzyWord 0.7 "be".toList "down".toList :=
  fuzzyWord_eval_false _ _ _ 0 2 4 (by decide) (by decide) (by decide) (by decide)
    (by norm_num) (by norm_num)

theorem fw70_humble_be : ¬ fuzzyWord 0.7 "humble".toList "be".toList :=
  fuzzyWord_eval_false _ _ _ 2 6 2 (by decide) (by decide) (by decide) (by decide)
    (by norm_num) (by norm_num)

theorem fm75_w0 : fuzzyMatches 0.75 ["be".toList, "humble".toList]
    ["sit".toList, "down".toList] = 0 := by
  simp only [fuzzyMatches]
  rw [if_neg fw75_be_sit, if_neg fw75_humble_down]

theorem fm75_w1 : fuzzyMatches 0.75 ["be".toList, "humble".toList]
    ["down".toList, "be".toList] = 0 := by
  simp only [fuzzyMatches]
  rw [if_neg fw75_be_down, if_neg fw75_humble_be]

theorem fm75_w2 : fuzzyMatches 0.75 ["be".toList, "humble".toList]
    ["be".toList, "humble".toList] = 2 := by
  simp only [fuzzyMatches]
  rw [if_pos (fuzzyWord_refl 0.75 "be".toList)]
  rw [if_pos (fuzzyWord_refl 0.75 "humble".toList)]

theorem fm70_w0 : fuzzyMatches 0.7 ["be".toList, "humble".toList]
    ["sit".toList, "down".toList] = 0 := by
  simp only [fuzzyMatches]
  rw [if_neg fw70_be_sit, if_neg fw70_humble_down]

theorem fm70_w1 : fuzzyMatches 0.7 ["be".toList, "humble".toList]
    ["down".toList, "be".toList] = 0 := by
  simp only [fuzzyMatches]
  rw [if_neg fw70_be_down, if_neg fw70_humble_be]

theorem fm70_w2 : fuzzyMatches 0.7 ["be".toList, "humble".toList]
    ["be".toList, "humble".toList] = 2 := by
  simp only [fuzzyMatches]
  rw [if_pos (fuzzyWord_refl 0.7 "be".toList)]
  rw [if_pos (fuzzyWord_refl 0.7 "humble".toList)]

theorem eval_overlap_BH :
    wordSetOverlap (wordsOf lyricBH) (wordsOf segBH.text) = 1 := by
  rw [wordSetOverlap, if_neg (by decide)]
  rw [show ((wordsOf lyricBH).dedup.filter
      (fun w => decide (w ∈ wordsOf segBH.text))).length = 2 from by decide]
  rw [show (wordsOf lyricBH).dedup.length = 2 from by decide]
  norm_num

theorem eval_consec_BH :
    strategyConsec (wordsOf lyricBH) (wordsOf segBH.text) = 1 := by
  rw [strategyConsec, if_pos (by decide)]
  rw [show max 1 ((wordsOf segBH.text).length - (wordsOf lyricBH).length + 1) = 3 from
    by decide]
  rw [show List.range 3 = [0, 1, 2] from by decide]
  simp only [List.foldl_cons, List.foldl_nil]
  rw [show List.take (wordsOf lyricBH).length (List.drop 0 (wordsOf segBH.text)) =
    ["sit".toList, "down".toList] from by decide]
  rw [show List.take (wordsOf lyricBH).length (List.drop 1 (wordsOf segBH.text)) =
    ["down".toList, "be".toList] from by decide]
  rw [show List.take (wordsOf lyricBH).length (List.drop 2 (wordsOf segBH.text)) =
    ["be".toList, "humble".toList] from by decide]
  rw [show wordsOf lyricBH = ["be".toList, "humble".toList] from by decide]
  rw [fm75_w0, fm75_w1, fm75_w2]
  norm_num [max_def]

theorem eval_seq_BH : smRatio (cleanText lyricBH) (cleanText segBH.text) = 2/3 := by
  rw [smRatio, if_neg (by decide)]
  rw [show matchingSize (cleanText lyricBH) (cleanText segBH.text) = 9 from by decide]
  rw [show (cleanText lyricBH).length = 9 from by decide]
  rw [show (cleanText segBH.text).length = 18 from by decide]
  norm_num

theorem eval_ws_BH : windowScore lyricBH segBH.text = 19/20 := by
  rw [windowScore, eval_overlap_BH, eval_consec_BH, eval_seq_BH]
  norm_num [max_def]

theorem eval_match_BH :
    match_lyric_to_segments lyricBH [segBH] = (some segBH, 19/20) := by
  rw [match_lyric_to_segments, if_neg (by decide)]
  rw [List.foldl_cons, List.foldl_nil]
  simp only [matchStep]
  rw [if_neg (by decide), if_neg (by decide), if_neg (by decide), eval_ws_BH]
  norm_num

theorem eval_bmp_BH : bestMatchPos (wordsOf lyricBH) (wordsOf segBH.text) = 2 := by
  rw [bestMatchPos]
  rw [show max 1 ((wordsOf segBH.text).length - (wordsOf lyricBH).length + 1) = 3 from
    by decide]
  rw [show List.range 3 = [0, 1, 2] from by decide]
  simp only [List.foldl_cons, List.foldl_nil]
  rw [show List.take (wordsOf lyricBH).length (List.drop 0 (wordsOf segBH.text)) =
    ["sit".toList, "down".toList] from by decide]
  rw [show List.take (wordsOf lyricBH).length (List.drop 1 (wordsOf segBH.text)) =
    ["down".toList, "be".toList] from by decide]
  rw [show List.take (wordsOf lyricBH).length (List.drop 2 (wordsOf segBH.text)) =
    ["be".toList, "humble".toList] from by decide]
  rw [show wordsOf lyricBH = ["be".toList, "humble".toList] from by decide]
  rw [fm70_w0, fm70_w1, fm70_w2]
  norm_num

theorem eval_refine_BH : refine_timestamp lyricBH segBH 10 = (5, 9) := by
  rw [refine_timestamp, if_neg (by decide)]
  simp only [refineCore]
  rw [eval_bmp_BH]
  rw [show (wordsOf lyricBH).length = 2 from by decide]
  rw [show (wordsOf segBH.text).length = 4 from by decide]
  norm_num [segBH, round3, rhe, Int.fract, MIN_PHRASE_DURATION, MAX_PHRASE_DURATION]

def lyricC2 : List Char := "qa qb qc qd qe zz".toList

def segC2 : Seg := ⟨0, 10, "zz".toList⟩

theorem fw75_qa_zz : ¬ fuzzyWord 0.75 "qa".toList "zz".toList :=
  fuzzyWord_eval_false _ _ _ 0 2 2 (by decide) (by decide) (by decide) (by decide)
    (by norm_num) (by norm_num)

theorem fm75_c2 : fuzzyMatches 0.75 ["qa".toList, "qb".toList, "qc".toList,
    "qd".toList, "qe".toList, "zz".toList] ["zz".toList] = 0 := by
  simp only [fuzzyMatches]
  rw [if_neg fw75_qa_zz]

theorem eval_overlap_C2 :
    wordSetOverlap (wordsOf lyricC2) (wordsOf segC2.text) = 1/6 := by
  rw [wordSetOverlap, if_neg (by decide)]
  rw [show ((wordsOf lyricC2).dedup.filter
      (fun w => decide (w ∈ wordsOf segC2.text))).length = 1 from by decide]
  rw [show (wordsOf lyricC2).dedup.length = 6 from by decide]
  norm_num

theorem eval_consec_C2 :
    strategyConsec (wordsOf lyricC2) (wordsOf segC2.text) = 0 := by
  rw [strategyConsec, if_pos (by decide)]
  rw [show max 1 ((wordsOf segC2.text).length - (wordsOf lyricC2).length + 1) = 1 from
    by decide]
  rw [show List.range 1 = [0] from by decide]
  simp only [List.foldl_cons, List.foldl_nil]
  rw [show List.take (wordsOf lyricC2).length (List.drop 0 (wordsOf segC2.text)) =
    ["zz".toList] from by decide]
  rw [show wordsOf lyricC2 = ["qa".toList, "qb".toList, "qc".toList, "qd".toList,
    "qe".toList, "zz".toList] from by decide]
  rw [fm75_c2]
  norm_num [max_def]

theorem eval_seq_C2 : smRatio (cleanText lyricC2) (cleanText segC2.text) = 4/19 := by
  rw [smRatio, if_neg (by decide)]
  rw [show matchingSize (cleanText lyricC2) (cleanText segC2.text) = 2 from by decide]
  rw [show (cleanText lyricC2).length = 17 from by decide]
  rw [show (cleanText segC2.text).length = 2 from by decide]
  norm_num

theorem eval_ws_C2 : windowScore lyricC2 segC2.text = 4/19 := by
  rw [windowScore, eval_overlap_C2, eval_consec_C2, eval_seq_C2]
  norm_num [max_def]

theorem eval_match_C2 :
    match_lyric_to_segments lyricC2 [segC2] = (some segC2, 4/19) := by
  rw [match_lyric_to_segments, if_neg (by decide)]
  rw [List.foldl_cons, List.foldl_nil]
  simp only [matchStep]
  rw [if_neg (by decide), if_neg (by decide), if_neg (by decide), eval_ws_C2]
  norm_num

theorem eval_grok_C2 : (grok_align_line lyricC2 [segC2] 10).2.2 = 211/1000 := by
  have hfold : [segC2].foldl (matchStep lyricC2) (none, 0) = (some segC2, 4/19) := by
    have h := eval_match_C2
    rw [match_lyric_to_segments, if_neg (by decide)] at h
    exact h
  rw [grok_align_line, if_neg (by decide), hfold]
  norm_num [round3, rhe, Int.fract]

def punctLyric : List Char := "?!".toList

def lyricAB : List Char := "a b".toList

def tBAC : List Char := "b a c".toList

def lyricYo : List Char := "yo".toList

def textYo : List Char := "yo yo check".toList

/-! ### Claim C6 and the remaining claim theorems, counterexamples and
witnesses for the matcher and the refiner -/

/-- Claim C6: matching the lyric `"be humble"` against a single 10-second window
transcribed as `"sit down be humble"` yields word-set overlap 1.0 and an
accepted match with confidence at least 0.85 (the exact confidence is
0.95, from the consecutive-word strategy); the raw words-per-second
duration estimate is `2 / (4/10) = 5.0` seconds, and the refined phrase is
clamped to `MAX_PHRASE_DURATION = 4.0` seconds: `(start, end) = (5, 9)`. -/
theorem claim_C6 :
    wordSetOverlap (wordsOf lyricBH) (wordsOf segBH.text) = 1 ∧
      match_lyric_to_segments lyricBH [segBH] = (some segBH, 19/20) ∧
      MIN_CONFIDENCE ≤ 19/20 ∧ (0.85 : ℚ) ≤ 19/20 ∧
      ((wordsOf lyricBH).length : ℚ) /
        (((wordsOf segBH.text).length : ℚ) / 10) = 5 ∧
      refine_timestamp lyricBH segBH 10 = (5, 9) ∧
      (9 : ℚ) - 5 = MAX_PHRASE_DURATION := by
  refine ⟨eval_overlap_BH, eval_match_BH, by norm_num [MIN_CONFIDENCE],
    by norm_num, ?_, eval_refine_BH, by norm_num [MAX_PHRASE_DURATION]⟩
  rw [show (wordsOf lyricBH).length = 2 from by decide]
  rw [show (wordsOf segBH.text).length = 4 from by decide]
  norm_num

/-- Counterexample to claim C1: for the accepted (confidence 1.0) match of lyric
`"a"` against the window `[0, 10]` transcribed as `"a"`, and a song of
duration `0.6006 ≥ MIN_PHRASE_DURATION`, the refiner returns
`(0, 0.601)` — the rounded end exceeds the song duration, refuting
`end ≤ song_duration` as stated. -/
theorem claim_C1_counterexample :
    (match_lyric_to_segments lyricA [segA]).1 = some segA ∧
      MIN_PHRASE_DURATION ≤ (0.6006 : ℚ) ∧
      refine_timestamp lyricA segA 0.6006 = (0, 0.601) ∧
      ¬ ((refine_timestamp lyricA segA 0.6006).2 ≤ 0.6006) := by
  refine ⟨by rw [eval_match_A], by norm_num [MIN_PHRASE_DURATION],
    eval_refine_A, ?_⟩
  rw [eval_refine_A]
  norm_num

/-- Witness for C1 at lyric `"a"`, window `[0, 10]` with text `"a"`, song
duration 10. -/
theorem claim_C1_witness :
    (match_lyric_to_segments lyricA [segA]).1 = some segA ∧
      MIN_PHRASE_DURATION ≤ (10 : ℚ) ∧
      (MIN_PHRASE_DURATION ≤
          (refine_timestamp lyricA segA 10).2 -
            (refine_timestamp lyricA segA 10).1 ∧
        (refine_timestamp lyricA segA 10).2 -
            (refine_timestamp lyricA segA 10).1 ≤ MAX_PHRASE_DURATION ∧
        0 ≤ (refine_timestamp lyricA segA 10).1 ∧
        (refine_timestamp lyricA segA 10).1 <
          (refine_timestamp lyricA segA 10).2 ∧
        (refine_timestamp lyricA segA 10).2 ≤ 10 + 1/2000) := by
  have hm : (match_lyric_to_segments lyricA [segA]).1 = some segA := by
    rw [eval_match_A]
  have hd : MIN_PHRASE_DURATION ≤ (10 : ℚ) := by norm_num [MIN_PHRASE_DURATION]
  exact ⟨hm, hd, claim_C1 lyricA [segA] segA 10 hm hd⟩

/-- Counterexample to claim C2: for the six-word lyric `"qa qb qc qd qe zz"`
against a single window transcribed as `"zz"`, the best score `4/19` is
below every acceptance threshold in the 0.25–0.30 range, yet the matcher
returns the window and the raw score — not `(None, 0.0)`; likewise
`grok_align_line` (whose own zeroing threshold is 0.15, not 0.25–0.30)
returns the nonzero confidence `0.211`. -/
theorem claim_C2_counterexample :
    (match_lyric_to_segments lyricC2 [segC2]).2 = 4/19 ∧
      (4/19 : ℚ) < 0.25 ∧ (4/19 : ℚ) < MIN_CONFIDENCE ∧
      (match_lyric_to_segments lyricC2 [segC2]).1 = some segC2 ∧
      match_lyric_to_segments lyricC2 [segC2] ≠ (none, 0) ∧
      (grok_align_line lyricC2 [segC2] 10).2.2 ≠ 0 := by
  refine ⟨by rw [eval_match_C2], by norm_num, by norm_num [MIN_CONFIDENCE],
    by rw [eval_match_C2], ?_, ?_⟩
  · rw [eval_match_C2]
    simp
  · rw [eval_grok_C2]
    norm_num

/-- Witness for C2 at the pure-punctuation lyric `"?!"`. -/
theorem claim_C2_witness :
    wordsOf punctLyric = [] ∧
      match_lyric_to_segments punctLyric [segC2] = (none, 0) :=
  ⟨by decide, (claim_C2 punctLyric [segC2]).1 (by decide)⟩

/-- Witness for C5 at lyric `"a"` and the non-instrumental window of
`segA`. -/
theorem claim_C5_witness :
    (match_lyric_to_segments lyricA [segA]).1 = some segA ∧
      hasInstrumental segA.text = false := by
  have hm : (match_lyric_to_segments lyricA [segA]).1 = some segA := by
    rw [eval_match_A]
  exact ⟨hm, claim_C5 lyricA [segA] segA hm⟩

/-- Counterexample to claim C7: a lyric with zero extractable words is vacuously
word-multiset-contained in any transcript, yet the code scores its overlap
`0`, not `1.0`. -/
theorem claim_C7_counterexample :
    (∀ w ∈ wordsOf punctLyric, w ∈ wordsOf lyricA) ∧
      wordSetOverlap (wordsOf punctLyric) (wordsOf lyricA) ≠ 1 := by
  constructor
  · decide
  · rw [wordSetOverlap, if_pos (by decide)]
    norm_num

/-- Witness for C7 at lyric `"a b"` contained in transcript `"b a c"`. -/
theorem claim_C7_witness :
    wordsOf lyricAB ≠ [] ∧
      (∀ w ∈ wordsOf lyricAB, w ∈ wordsOf tBAC) ∧
      wordSetOverlap (wordsOf lyricAB) (wordsOf tBAC) = 1 :=
  ⟨by decide, by decide, claim_C7 lyricAB tBAC (by decide) (by decide)⟩

/-- Witness for C9 at the one-word lyric `"yo"` against transcript
`"yo yo check"`. -/
theorem claim_C9_witness :
    (wordsOf lyricYo).length = 1 ∧
      (strategyConsec (wordsOf lyricYo) (wordsOf textYo) = 0 ∧
        windowScore lyricYo textYo =
          max (wordSetOverlap (wordsOf lyricYo) (wordsOf textYo) * 0.85)
            (smRatio (cleanText lyricYo) (cleanText textYo))) :=
  ⟨by decide, claim_C9 lyricYo textYo (by decide)⟩

/-! ### Claim C3: the Clip Chopper -/

/-- The chopper loop is the filter of the acceptance test over the first
`MAX_CLIPS_PER_SONG` phrases, enumerated from the loop counter. -/
theorem chopAux_eq (y : List ℚ) :
    ∀ (l : List Phrase) (ci : ℕ),
      chopAux y ci l =
        ((l.enumFrom ci).filter (fun p => acceptPhrase y p.2)).map
          (fun p => mkClip y p.1 p.2) := by
  intro l
  induction l with
  | nil => intro ci; simp [chopAux, List.enumFrom]
  | cons ph rest ih =>
      intro ci
      by_cases h : acceptPhrase y ph
      · simp [chopAux, List.enumFrom, h, ih]
      · simp [chopAux, List.enumFrom, h, ih]

/-- An accepted phrase's clip record has duration at least
`MIN_PHRASE_DURATION` (rounding included) and squared RMS at least the
squared silence threshold. -/
theorem mkClip_ok (y : List ℚ) (ci : ℕ) (ph : Phrase)
    (h : acceptPhrase y ph = true) :
    MIN_PHRASE_DURATION ≤ (mkClip y ci ph).duration ∧
      (0.005 : ℚ) ^ 2 ≤ (mkClip y ci ph).rms_sq := by
  simp only [acceptPhrase] at h
  split_ifs at h with hg
  push_neg at hg
  rw [decide_eq_true_eq] at h
  have hrms := not_lt.mp h
  constructor
  · simp only [mkClip]
    have h06 : round3 MIN_PHRASE_DURATION = MIN_PHRASE_DURATION := by
      norm_num [round3, rhe, Int.fract, MIN_PHRASE_DURATION]
    calc MIN_PHRASE_DURATION = round3 MIN_PHRASE_DURATION := h06.symm
      _ ≤ _ := round3_mono hg.1
  · simpa only [mkClip] using hrms

/-- Every clip the chopper loop emits satisfies both emission bounds. -/
theorem chopAux_all (y : List ℚ) :
    ∀ (l : List Phrase) (ci : ℕ),
      (chopAux y ci l).all
        (fun c => decide (MIN_PHRASE_DURATION ≤ c.duration) &&
          decide ((0.005 : ℚ) ^ 2 ≤ c.rms_sq)) = true := by
  intro l
  induction l with
  | nil => intro ci; rfl
  | cons ph rest ih =>
      intro ci
      by_cases h : acceptPhrase y ph
      · have hok := mkClip_ok y ci ph h
        simp only [chopAux, if_pos h, List.all_cons, ih (ci + 1), Bool.and_true]
        simp [hok.1, hok.2]
      · simp only [chopAux, if_neg h]
        exact ih (ci + 1)

/-- Claim C3: the Clip Chopper emits a clip for a phrase (among the first
`MAX_CLIPS_PER_SONG`) exactly when its 0.05 s-padded, `[0, duration]`-
clamped slice has duration inside
`[MIN_PHRASE_DURATION, MAX_PHRASE_DURATION + 0.5]` and RMS at or above the
0.005 silence threshold (`acceptPhrase`); rejected phrases are dropped
without aborting the rest, and every emitted clip has duration at least
`MIN_PHRASE_DURATION` and measured RMS at least the threshold (stated on
the squared RMS, which is what stays inside `ℚ`). -/
theorem claim_C3 (y : List ℚ) (phrases : List Phrase) :
    chop_song_by_phrases y phrases =
      (((phrases.take MAX_CLIPS_PER_SONG).enum).filter
        (fun p => acceptPhrase y p.2)).map (fun p => mkClip y p.1 p.2) ∧
      (chop_song_by_phrases y phrases).all
        (fun c => decide (MIN_PHRASE_DURATION ≤ c.duration) &&
          decide ((0.005 : ℚ) ^ 2 ≤ c.rms_sq)) = true := by
  constructor
  · rw [chop_song_by_phrases, chopAux_eq]
    rfl
  · exact chopAux_all y _ 0

/-! ### Claims C4 and C10: the Acoustic Fallback Segmenter -/

theorem argBestAux_lt (upd : ℚ → ℚ → Bool) :
    ∀ (vals : List ℚ) (i best : ℕ) (bv : ℚ),
      best < i → argBestAux upd vals i best bv < i + vals.length := by
  intro vals
  induction vals with
  | nil => intro i best bv h; simpa using h
  | cons v vs ih =>
      intro i best bv h
      simp only [argBestAux, List.length_cons]
      split
      · have := ih (i + 1) i v (by omega)
        omega
      · have := ih (i + 1) best bv (by omega)
        omega

theorem argmaxList_lt (vals : List ℚ) (h : vals ≠ []) :
    argmaxList vals < vals.length := by
  match vals, h with
  | v :: vs, _ =>
      have h2 := argBestAux_lt (fun w bv => decide (bv < w)) vs 1 0 v (by omega)
      simp only [argmaxList, List.length_cons]
      omega

theorem argminList_lt (vals : List ℚ) (h : vals ≠ []) :
    argminList vals < vals.length := by
  match vals, h with
  | v :: vs, _ =>
      have h2 := argBestAux_lt (fun w bv => decide (w < bv)) vs 1 0 v (by omega)
      simp only [argminList, List.length_cons]
      omega

theorem splitStep_length (l : List (ℚ × ℚ)) (h : l ≠ []) :
    (splitStep l).length = l.length + 1 := by
  have hidx : argmaxList (l.map (fun p => p.2 - p.1)) < l.length := by
    have := argmaxList_lt (l.map (fun p => p.2 - p.1))
      (by simpa using h)
    simpa using this
  simp only [splitStep, List.length_append, List.length_take, List.length_cons,
    List.length_nil, List.length_drop]
  omega

theorem mergeStep_length (l : List (ℚ × ℚ)) (h : 2 ≤ l.length) :
    (mergeStep l).length = l.length - 1 := by
  have hgaps : ((l.zip l.tail).map (fun p => p.2.1 - p.1.2)).length =
      l.length - 1 := by
    simp only [List.length_map, List.length_zip, List.length_tail]
    omega
  have hidx : argminList ((l.zip l.tail).map (fun p => p.2.1 - p.1.2)) <
      l.length - 1 := by
    have hne : (l.zip l.tail).map (fun p => p.2.1 - p.1.2) ≠ [] := by
      intro he
      have h0 : ((l.zip l.tail).map (fun p => p.2.1 - p.1.2)).length = 0 := by
        rw [he]; rfl
      omega
    have := argminList_lt _ hne
    omega
  simp only [mergeStep, List.length_append, List.length_take, List.length_cons,
    List.length_nil, List.length_drop]
  omega

theorem splitLoop_length (n : ℕ) :
    ∀ (fuel : ℕ) (l : List (ℚ × ℚ)), 1 ≤ l.length → n ≤ l.length + fuel →
      (splitLoop n fuel l).length = max l.length n := by
  intro fuel
  induction fuel with
  | zero =>
      intro l h1 h2
      simp only [splitLoop]
      omega
  | succ fuel ih =>
      intro l h1 h2
      simp only [splitLoop]
      split
      · have hne : l ≠ [] := by
          intro he; rw [he] at h1; simp at h1
        have hl := splitStep_length l hne
        have hrec := ih (splitStep l) (by omega) (by omega)
        rw [hrec, hl]
        omega
      · omega

theorem mergeLoop_length (n : ℕ) (hn : 1 ≤ n) :
    ∀ (fuel : ℕ) (l : List (ℚ × ℚ)), n ≤ l.length → l.length ≤ n + fuel →
      (mergeLoop n fuel l).length = n := by
  intro fuel
  induction fuel with
  | zero =>
      intro l h1 h2
      simp only [mergeLoop]
      omega
  | succ fuel ih =>
      intro l h1 h2
      simp only [mergeLoop]
      split
      · rename_i hc
        have hm := mergeStep_length l (by omega)
        exact ih (mergeStep l) (by omega) (by omega)
      · rename_i hc
        have : ¬ n < l.length := fun hlt => hc ⟨hlt, by omega⟩
        omega

theorem buildRawSegs_ne_nil :
    ∀ (ts : List ℚ) (s e : ℚ), buildRawSegs s e ts ≠ [] := by
  intro ts
  induction ts with
  | nil => intro s e; simp [buildRawSegs]
  | cons t ts ih =>
      intro s e
      simp only [buildRawSegs]
      split
      · exact ih s t
      · simp

/-- Claim C4: for every detected onset list and every target count
`num_lines ≥ 1`, the Acoustic Fallback Segmenter returns exactly
`num_lines` pairs; in the degenerate case of fewer than 2 onsets the
result is the uniform linear division of the duration into `num_lines`
equal slices. -/
theorem claim_C4 (onset_times : List ℚ) (duration : ℚ) (num_lines : ℕ)
    (hn : 1 ≤ num_lines) :
    (estimate_line_timestamps onset_times duration num_lines).length =
        num_lines ∧
      (onset_times.length < 2 →
        estimate_line_timestamps onset_times duration num_lines =
          (List.range num_lines).map (fun i : ℕ =>
            ((i : ℚ) * (duration / (num_lines : ℚ)),
              ((i : ℚ) + 1) * (duration / (num_lines : ℚ))))) := by
  constructor
  · simp only [estimate_line_timestamps]
    split_ifs with hdeg
    · rw [List.length_map, List.length_range]
    · have hraw : 1 ≤ (buildRawSegs (onset_times.headD 0) (onset_times.headD 0)
          onset_times.tail).length :=
        List.length_pos.mpr (buildRawSegs_ne_nil _ _ _)
      have h1 := splitLoop_length num_lines num_lines
        (buildRawSegs (onset_times.headD 0) (onset_times.headD 0)
          onset_times.tail) hraw (by omega)
      have h2 := mergeLoop_length num_lines hn
        (splitLoop num_lines num_lines
          (buildRawSegs (onset_times.headD 0) (onset_times.headD 0)
            onset_times.tail)).length
        (splitLoop num_lines num_lines
          (buildRawSegs (onset_times.headD 0) (onset_times.headD 0)
            onset_times.tail))
        (by omega) (by omega)
      simp only [finalizeSegs, List.length_map, List.enum_length,
        List.length_take]
      omega
  · intro hdeg
    simp only [estimate_line_timestamps]
    rw [if_pos hdeg]

/-- Witness for C4 at the degenerate input (no onsets), duration 12 and
4 lines. -/
theorem claim_C4_witness :
    1 ≤ 4 ∧ (estimate_line_timestamps [] 12 4).length = 4 :=
  ⟨by norm_num, (claim_C4 [] 12 4 (by norm_num)).1⟩

/-- Evaluation of the segmenter on onsets `[0, 1]`, a song of duration
1.2 s and a target of 2 lines: the minimum-duration floor, applied after
the clamp, pushes the last end to 1.6 s — past the song end. -/
theorem eval_estimate_C10 :
    estimate_line_timestamps [0, 1] (6/5) 2 = [(0, 1), (1, 8/5)] := by
  rw [estimate_line_timestamps]
  norm_num [buildRawSegs, -Prod.mk_zero_zero, -Prod.mk_one_one]
  rw [show splitLoop 2 2 [((0 : ℚ), (0 : ℚ)), (1, 1)] = [(0, 0), (1, 1)] from by
        simp [splitLoop]]
  simp only [List.length_cons, List.length_nil]
  norm_num [-Prod.mk_zero_zero, -Prod.mk_one_one]
  rw [show mergeLoop 2 2 [((0 : ℚ), (0 : ℚ)), (1, 1)] = [(0, 0), (1, 1)] from by
        simp [mergeLoop]]
  rw [finalizeSegs]
  simp only [List.take, List.enum, List.enumFrom, List.map_cons, List.map_nil]
  norm_num [round3, rhe, Int.fract, MIN_PHRASE_DURATION, MAX_PHRASE_DURATION]

/-- Claim C10: in the onset-derived (non-degenerate) path, every returned pair
satisfies `end ≥ start + MIN_PHRASE_DURATION` (the floor survives the final
rounding), but the floor is applied after the clamp to the song duration,
so `end` can exceed the song's total duration — as at onsets `[0, 1]`,
duration 1.2 and 2 lines, where the second pair ends at 1.6 > 1.2. -/
theorem claim_C10 :
    (∀ (onset_times : List ℚ) (duration : ℚ) (num_lines : ℕ) (p : ℚ × ℚ),
        2 ≤ onset_times.length →
        p ∈ estimate_line_timestamps onset_times duration num_lines →
        p.1 + MIN_PHRASE_DURATION ≤ p.2) ∧
      estimate_line_timestamps [0, 1] (6/5) 2 = [(0, 1), (1, 8/5)] ∧
      (6/5 : ℚ) < 8/5 := by
  refine ⟨?_, eval_estimate_C10, by norm_num⟩
  intro onset_times duration num_lines p h2 hp
  rw [estimate_line_timestamps, if_neg (by omega)] at hp
  simp only [finalizeSegs, List.mem_map] at hp
  rcases hp with ⟨x, hx, rfl⟩
  have hsep := round3_sep x.2.1
    (max (if x.1 + 1 <
        (mergeLoop num_lines
          (splitLoop num_lines num_lines
            (buildRawSegs (onset_times.headD 0) (onset_times.headD 0)
              onset_times.tail)).length
          (splitLoop num_lines num_lines
            (buildRawSegs (onset_times.headD 0) (onset_times.headD 0)
              onset_times.tail))).length then
        min ((mergeLoop num_lines
          (splitLoop num_lines num_lines
            (buildRawSegs (onset_times.headD 0) (onset_times.headD 0)
              onset_times.tail)).length
          (splitLoop num_lines num_lines
            (buildRawSegs (onset_times.headD 0) (onset_times.headD 0)
              onset_times.tail))).getD (x.1 + 1) (0, 0)).1
          (x.2.1 + MAX_PHRASE_DURATION + 1)
      else min duration (x.2.1 + MAX_PHRASE_DURATION + 1))
      (x.2.1 + MIN_PHRASE_DURATION))
    600 (by norm_num) ?_
  · have h600 : ((600 : ℤ) : ℚ) / 1000 = MIN_PHRASE_DURATION := by
      norm_num [MIN_PHRASE_DURATION]
    rw [h600] at hsep
    linarith
  · have h600 : ((600 : ℤ) : ℚ) / 1000 = MIN_PHRASE_DURATION := by
      norm_num [MIN_PHRASE_DURATION]
    rw [h600]
    exact le_max_right _ _

/-- Witness for C10 at onsets `[0, 1]`, duration 1.2 and 2 lines. -/
theorem claim_C10_witness :
    2 ≤ ([0, 1] : List ℚ).length ∧
      ((1 : ℚ), (8/5 : ℚ)) ∈ estimate_line_timestamps [0, 1] (6/5) 2 ∧
      (1 : ℚ) + MIN_PHRASE_DURATION ≤ 8/5 := by
  have h1 : 2 ≤ ([0, 1] : List ℚ).length := by norm_num
  have h2 : ((1 : ℚ), (8/5 : ℚ)) ∈ estimate_line_timestamps [0, 1] (6/5) 2 := by
    rw [eval_estimate_C10]
    simp
  exact ⟨h1, h2, claim_C10.1 [0, 1] (6/5) 2 (1, 8/5) h1 h2⟩
